import Mathlib

/-!
Verification of the on-demand module transpilation and bundling gateway
(the transpiler middleware).  Every definition in this file is a shallow
embedding of a function or code path of the middleware source; effectful
code (filesystem, the in-flight promise map, the trusted-dependency set)
is modelled by explicit state passing.  The external compiler and module
resolver are black boxes and enter the model as boolean oracles.
-/

set_option autoImplicit false

/- ### Basic string helpers.
The source manipulates JavaScript strings; we model every string operation
on the character list (String.data) so that all definitions compute in the
kernel.  JS startsWith, endsWith, trim, split and includes are re-implemented
below with list recursion. -/

/-- Model of JS "s.startsWith(p)": the characters of p are a list prefix
of the characters of s. -/
def strBeginsWith (s p : String) : Bool :=
  p.data.isPrefixOf s.data

/-- Model of JS "s.endsWith(p)". -/
def strEndsWith (s p : String) : Bool :=
  p.data.reverse.isPrefixOf s.data.reverse

/-- Model of JS "s.slice(n)" for a nonnegative character index. -/
def strDrop (s : String) (n : Nat) : String :=
  ⟨s.data.drop n⟩

/-- Model of JS "s.slice(0, -n)": drop the last n characters. -/
def strDropRight (s : String) (n : Nat) : String :=
  ⟨s.data.dropLast.reverse.drop (n - 1) |>.reverse⟩

/-- Model of JS "s.trim()": remove whitespace from both ends. -/
def strTrim (s : String) : String :=
  ⟨(s.data.dropWhile Char.isWhitespace).reverse.dropWhile Char.isWhitespace |>.reverse⟩

/-- Model of JS "s.split(sep)" for a one-character separator, keeping the
empty pieces exactly as JS does. -/
def splitOnChar (sep : Char) : List Char → List String
  | [] => [""]
  | c :: cs =>
    if c = sep then
      "" :: splitOnChar sep cs
    else
      match splitOnChar sep cs with
      | [] => [⟨[c]⟩]
      | t :: ts => (⟨c :: t.data⟩ : String) :: ts

/-- Model of JS "s.includes(c)" for a one-character needle. -/
def strContainsChar (s : String) (c : Char) : Bool :=
  s.data.elem c

/-- Model of JSON.stringify on a string value (the escapes the middleware
can actually produce in an error message; \b, \f and other control escapes
are not needed by any claim). -/
def jsonEscapeChar (c : Char) : List Char :=
  if c = '"' then ['\\', '"']
  else if c = '\\' then ['\\', '\\']
  else if c = '\n' then ['\\', 'n']
  else if c = '\r' then ['\\', 'r']
  else if c = '\t' then ['\\', 't']
  else [c]

/-- JSON.stringify of a string: quote it and escape the body. -/
def jsonQuote (s : String) : String :=
  ⟨'"' :: (s.data.flatMap jsonEscapeChar) ++ ['"']⟩

/- ### Trust registry (source: trustedDependencies / registerTrustedDependency).

  const trustedDependencies = new Set<string>([...prewarm, ...Object.keys(globals)]);
  function registerTrustedDependency(moduleName) {
    if (!moduleName) return;
    const normalizedName = moduleName.trim();
    if (normalizedName && !trustedDependencies.has(normalizedName)) {
      trustedDependencies.add(normalizedName);
    }
  }

A JS Set preserves insertion order and never holds duplicates; we model it
as a duplicate-free list in insertion order. -/

/-- Model of registerTrustedDependency: the only operation that ever
mutates the trusted-dependency set. -/
def registerTrustedDependency (trusted : List String) (moduleName : String) : List String :=
  if moduleName = "" then trusted
  else if strTrim moduleName ≠ "" ∧ strTrim moduleName ∉ trusted then
    trusted ++ [strTrim moduleName]
  else trusted

/-- Model of "new Set([...prewarm, ...Object.keys(globals)])": raw insertion
of every element, skipping ones already present. -/
def setFromList (l : List String) : List String :=
  l.foldl (fun acc n => if n ∈ acc then acc else acc ++ [n]) []

/-- Model of the cache-directory reverse mapping applied at startup:
"file.slice(0, -3).replace(/__/g, '/')" on each *.js stem (the stem is the
file name without the ".js"). -/
def unsanitizeChars : List Char → List Char
  | [] => []
  | [c] => [c]
  | c1 :: c2 :: r =>
    if c1 = '_' ∧ c2 = '_' then '/' :: unsanitizeChars r
    else c1 :: unsanitizeChars (c2 :: r)

/-- Model of "moduleName.replace(/\//g, '__')": the on-disk cache key of a
vendor package name (source: bundleVendorModule and the vendor handler). -/
def sanitizeChars : List Char → List Char
  | [] => []
  | c :: r => if c = '/' then '_' :: '_' :: sanitizeChars r else c :: sanitizeChars r

/-- The sanitized cache key of a package name. -/
def cacheKeyOf (moduleName : String) : String :=
  ⟨sanitizeChars moduleName.data⟩

/-- The package name recovered at startup from a persisted cache file stem. -/
def stemToModule (stem : String) : String :=
  ⟨unsanitizeChars stem.data⟩

/-- Model of the whole construction-time seeding of trustedDependencies:
the Set literal over prewarm and the globals keys, then
registerTrustedDependency over every *.js stem found in the cache directory
(through the reverse mapping), then registerTrustedDependency over every
scanned import specifier that is neither relative nor absolute. -/
def seedTrustedDependencies (prewarm globalsKeys cachedStems scannedImports : List String) :
    List String :=
  let s0 := setFromList (prewarm ++ globalsKeys)
  let s1 := cachedStems.foldl (fun acc stem => registerTrustedDependency acc (stemToModule stem)) s0
  (scannedImports.filter
    (fun p => ¬ strBeginsWith p "." ∧ ¬ strBeginsWith p "/")).foldl
    registerTrustedDependency s1

/- ### Compile-time define map (source: publicEnv / defaultDefine).

  const publicEnv = {};
  for (const [key, value] of Object.entries(process.env)) {
    if (key.startsWith("PUBLIC_")) publicEnv["process.env." + key] = JSON.stringify(value);
  }
  const defaultDefine = {
    "process.env.NODE_ENV": JSON.stringify(process.env.NODE_ENV || "development"),
    ...publicEnv,
    ...define,
  };

A JS object literal with spreads is modelled as an association list in which
a later binding for the same key overrides an earlier one. -/

/-- Lookup in an association list where the last binding wins, the way a JS
object literal built with spreads behaves. -/
def objLookup : List (String × String) → String → Option String
  | [], _ => none
  | kv :: rest, k =>
    match objLookup rest k with
    | some v => some v
    | none => if kv.1 = k then some kv.2 else none

/-- First-binding lookup, the reading model for process.env itself
(whose keys are unique). -/
def envLookup (env : List (String × String)) (k : String) : Option String :=
  (env.find? (fun kv => kv.1 = k)).map (·.2)

/-- Model of the publicEnv loop: every PUBLIC_ environment variable becomes
a "process.env.<key>" define bound to the JSON-stringified value. -/
def publicEnvPairs (env : List (String × String)) : List (String × String) :=
  (env.filter (fun kv => strBeginsWith kv.1 "PUBLIC_")).map
    (fun kv => ("process.env." ++ kv.1, jsonQuote kv.2))

/-- Model of "process.env.NODE_ENV || 'development'": both an unset and an
empty NODE_ENV are replaced by "development" (|| tests JS falsiness). -/
def nodeEnvValue (nodeEnv : Option String) : String :=
  match nodeEnv with
  | some s => if s = "" then "development" else s
  | none => "development"

/-- Model of defaultDefine: NODE_ENV binding first, then the PUBLIC_
bindings, then the caller-supplied define entries (later bindings win). -/
def defaultDefine (env : List (String × String)) (define : List (String × String)) :
    List (String × String) :=
  ("process.env.NODE_ENV", jsonQuote (nodeEnvValue (envLookup env "NODE_ENV")))
    :: publicEnvPairs env ++ define

/- ### Vendor module resolution (source: resolveModulePath).

  function resolveModulePath(moduleName) {
    if (globals[moduleName]) return moduleName;
    try {
      Bun.resolveSync(moduleName, process.cwd());
      registerTrustedDependency(moduleName);
      return basePrefix + vendorPath.replace(/^\/|\/$/g, "") + "/" + moduleName;
    } catch {
      if (cdnFallback) return "https://esm.sh/" + moduleName;
      return basePrefix + vendorPath.replace(/^\/|\/$/g, "") + "/" + moduleName;
    }
  }

Bun.resolveSync is external; it enters the model as the boolean oracle
"resolves" (true when local resolution succeeds).  The gateway
configuration relevant to resolution is collected in GatewayCfg; the
staticBasePath-derived base (named basePrefix in the source) is stored
already normalized to end in "/". -/

structure GatewayCfg where
  /-- basePrefix of the source: staticBasePath normalized to end in "/" -/
  basePre : String
  /-- the vendorPath option, default "vendor" -/
  vendorSub : String
  /-- the keys of the globals option -/
  globalsKeys : List String
  /-- oracle for Bun.resolveSync success -/
  resolves : String → Bool
  /-- the cdnFallback option -/
  cdnFallback : Bool

/-- Model of 'vendorPath.replace(/^\/|\/$/g, "")': the global regex matches
the first character when it is "/" and the last character when it is "/",
both judged on the original string. -/
def stripEdgeSlashes (v : String) : String :=
  let lead := strBeginsWith v "/"
  let v1 := if lead then strDrop v 1 else v
  if strEndsWith v "/" ∧ v.data.length ≥ 2 then strDropRight v1 1 else v1

/-- The public vendor proxy path of a package. -/
def vendorProxyPath (cfg : GatewayCfg) (moduleName : String) : String :=
  cfg.basePre ++ stripEdgeSlashes cfg.vendorSub ++ "/" ++ moduleName

/-- Return value of resolveModulePath. -/
def resolveModulePath (cfg : GatewayCfg) (moduleName : String) : String :=
  if moduleName ∈ cfg.globalsKeys then moduleName
  else if cfg.resolves moduleName then vendorProxyPath cfg moduleName
  else if cfg.cdnFallback then "https://esm.sh/" ++ moduleName
  else vendorProxyPath cfg moduleName

/-- Side effect of resolveModulePath on the trusted-dependency set: a name
is registered exactly when local resolution succeeds (the globals branch
returns before resolving). -/
def resolveModulePathTrust (cfg : GatewayCfg) (trusted : List String) (moduleName : String) :
    List String :=
  if moduleName ∈ cfg.globalsKeys then trusted
  else if cfg.resolves moduleName then registerTrustedDependency trusted moduleName
  else trusted

/- ### The vendor request handler (source: the branch of the middleware
guarded by pathname.startsWith(vendorPrefix)).

  const moduleName = pathname.slice(vendorPrefix.length);
  if (!cdnFallback && !trustedDependencies.has(moduleName)) return next();
  const cachedFile = ...;
  if (existsSync(cachedFile)) return <200 from cache>;
  try { await bundleVendorModule(moduleName); }
  catch (_err) { if (cdnFallback) return Response.redirect("https://esm.sh/" + moduleName, 302); }
  if (existsSync(cachedFile)) return <200 from cache>;
  return next();

bundleVendorModule invokes Bun.build (the compiler producer) only when
Bun.resolveSync succeeds; when resolution throws, the error is re-thrown to
the handler.  A failed Bun.build (result.success false) is swallowed inside
bundleVendorModule (it returns without writing the cache file), so the
handler falls through to next(). -/

/-- What the vendor handler does with a request, together with whether the
compiler producer (Bun.build) was invoked. -/
inductive VendorAction where
  /-- return next(): the request is delegated, indistinguishable from a 404 -/
  | delegate
  /-- 200 served from the already persisted cache file -/
  | serveCache
  /-- the package was bundled locally just now and served 200 from the fresh file -/
  | serveBundled
  /-- 302 redirect to the CDN mirror -/
  | redirectCdn (url : String)
deriving DecidableEq, Repr

/-- State the vendor handler consults: the trusted set and which package
names already have a persisted cache entry; buildOk is the oracle for
Bun.build success. -/
structure VendorState where
  trusted : List String
  cached : List String
  buildOk : String → Bool

/-- Model of the vendor branch of the middleware; the Bool is true exactly
when the compiler producer ran for this request. -/
def vendorHandle (cfg : GatewayCfg) (st : VendorState) (moduleName : String) :
    VendorAction × Bool :=
  if ¬ cfg.cdnFallback ∧ moduleName ∉ st.trusted then (.delegate, false)
  else if moduleName ∈ st.cached then (.serveCache, false)
  else if cfg.resolves moduleName then
    if st.buildOk moduleName then (.serveBundled, true)
    else (.delegate, true)
  else if cfg.cdnFallback then (.redirectCdn ("https://esm.sh/" ++ moduleName), false)
  else (.delegate, false)

/- ### The in-flight job lifecycle of bundleVendorModule (source lines of
the concurrency lock around the async IIFE).

  if (existsSync(cachedFile)) return;
  if (activeBundles.has(cacheKey)) return activeBundles.get(cacheKey);
  const promise = (async () => {
    if (existsSync(cachedFile)) return;
    try {
      const entryPoint = Bun.resolveSync(moduleName, process.cwd());
      const result = await Bun.build({...});        // first suspension point
      ...
      await Bun.write(cachedFile, content);
    } catch (err) { console.error(...); throw err; }
    finally { activeBundles.delete(cacheKey); }
  })();
  activeBundles.set(cacheKey, promise);
  return promise;

A JS async function body runs synchronously until its first await.  When
Bun.resolveSync throws, the catch and the finally therefore run during the
IIFE call itself, BEFORE activeBundles.set on the next line; the set then
registers the already-settled rejected promise and nothing ever deletes it.
When the producer reaches its first await, set runs first and the finally
deletes the key on completion.  The model distinguishes the producer
behaviours by the timing of the throw. -/

inductive ProducerBehavior where
  /-- resolution and build succeed; the bundle is persisted -/
  | success
  /-- Bun.build (after the first suspension point) fails by throwing -/
  | asyncThrow
  /-- Bun.resolveSync throws synchronously, before any suspension point -/
  | syncThrow
deriving DecidableEq, Repr

/-- The shared state bundleVendorModule manipulates for one cache key:
whether the persisted file exists and whether activeBundles holds the key. -/
structure BundleState where
  cacheExists : Bool
  mapHasKey : Bool
deriving DecidableEq, Repr

/-- The synchronous part of one bundleVendorModule call: both existence
checks, the map check, the start of the IIFE up to its first suspension
point, and the activeBundles.set that follows the IIFE call.  Returns the
state at the first suspension point and whether a completion is pending. -/
def bundleVendorCallSync (st : BundleState) (beh : ProducerBehavior) :
    BundleState × Bool :=
  if st.cacheExists then (st, false)
  else if st.mapHasKey then (st, false)
  else
    match beh with
    | .syncThrow =>
      -- IIFE: cache recheck, Bun.resolveSync throws, catch re-throws,
      -- finally deletes the (not yet set) key; then set registers the
      -- rejected promise.  No completion is pending.
      ({ st with mapHasKey := true }, false)
    | _ =>
      -- IIFE runs to the await of Bun.build; then set registers the key.
      ({ st with mapHasKey := true }, true)

/-- The completion of the producer after its first suspension point: on
success Bun.write persists the file, and in every case the finally block
deletes the key from activeBundles. -/
def bundleVendorComplete (st : BundleState) (beh : ProducerBehavior) : BundleState :=
  match beh with
  | .success => { cacheExists := true, mapHasKey := false }
  | _ => { st with mapHasKey := false }

/-- The state after one bundleVendorModule call has fully settled. -/
def bundleVendorFinal (st : BundleState) (beh : ProducerBehavior) : BundleState :=
  let (st1, pending) := bundleVendorCallSync st beh
  if pending then bundleVendorComplete st1 beh else st1

/- ### The local-file branch of the middleware (source: the statSync /
fastEtag fast path, the activeBundles lock keyed by
"local:" + sourceFile + ":" + fastEtag, the build, and the error response).

  const sourceStat = statSync(sourceFile);
  const fastEtag = `W/"${sourceStat.size}-${sourceStat.mtimeMs}-${minify}"`;
  if (req.headers.get("if-none-match") === fastEtag) return new Response(null, { status: 304 });
  const lockKey = `local:${sourceFile}:${fastEtag}`;
  if (activeBundles.has(lockKey)) {
    const result = await activeBundles.get(lockKey);   // NOT inside a try
    return new Response(result.content, { headers: { ..., ETag: fastEtag, ... } });
  }
  const buildPromise = (async () => { try { ...Bun.build...; return {content, contentType}; }
                                      finally { activeBundles.delete(lockKey); } })();
  activeBundles.set(lockKey, buildPromise);
  try { const finalResult = await buildPromise; return new Response(finalResult.content, {...}); }
  catch (err) { return new Response(`console.error(...overlay...)`, {...}); }
-/

/-- The weak validator of a local source file (source: fastEtag).  The stat
size and mtimeMs are rendered exactly as the template literal does
(booleans print as "true"/"false"). -/
def fastEtagOf (size mtimeMs : Nat) (minify : Bool) : String :=
  "W/\"" ++ toString size ++ "-" ++ toString mtimeMs ++ "-"
    ++ (if minify then "true" else "false") ++ "\""

/-- The Cache-Control header of a local 200 response. -/
def cacheControlLocal (localMaxAge : Nat) : String :=
  if localMaxAge > 0 then "public, max-age=" ++ toString localMaxAge else "no-cache"

/-- Outcome of one compiler run for a local file: a content/contentType
pair, or the message of the thrown build error. -/
inductive BuildOutcome where
  | ok (content contentType : String)
  | fail (msg : String)
deriving DecidableEq, Repr

/-- The response the model returns to the router. -/
structure GatewayResponse where
  status : Nat
  body : Option String
  contentType : Option String
  etag : Option String
  cacheControl : Option String
deriving DecidableEq, Repr

/-- A request either produces a response or lets an exception escape the
middleware (an awaited promise rejecting outside any try). -/
inductive LocalResult where
  | response (r : GatewayResponse)
  | thrown (msg : String)
deriving DecidableEq, Repr

/-- The browser-safe diagnostic script the catch block synthesizes for a
failed local build (source: the template literal of the error Response).
The overlay construction statements are abbreviated to the part every
claim mentions: the console.error call naming the source path and the
JSON-stringified message, followed by the DOM-overlay block that names the
file (last path segment) and the message again. -/
def errorScript (sourceFile msg : String) : String :=
  "console.error(\"[Abret] Build Error in " ++ sourceFile ++ ":\", " ++ jsonQuote msg
    ++ ");\ndocument-overlay:" ++ (splitOnChar '/' sourceFile.data).getLastD "" ++ ":"
    ++ jsonQuote msg

/-- Model of the whole local-file branch once a source file has been
resolved.  ifNoneMatch is the conditional request header; inflight is the
entry of activeBundles under this lockKey, when present; ownBuild is what
the compiler does when this request has to run it.  The Nat counts
compiler invocations made by this request. -/
def handleLocalFile (minify : Bool) (localMaxAge : Nat) (size mtimeMs : Nat)
    (ifNoneMatch : Option String) (inflight : Option BuildOutcome)
    (ownBuild : BuildOutcome) (sourceFile : String) : LocalResult × Nat :=
  let fastEtag := fastEtagOf size mtimeMs minify
  if ifNoneMatch = some fastEtag then
    (.response { status := 304, body := none, contentType := none,
                 etag := none, cacheControl := none }, 0)
  else
    match inflight with
    | some (.ok content contentType) =>
      (.response { status := 200, body := some content, contentType := some contentType,
                   etag := some fastEtag, cacheControl := some (cacheControlLocal localMaxAge) }, 0)
    | some (.fail msg) =>
      -- the await of the joined promise is not inside any try/catch:
      -- the rejection escapes the middleware
      (.thrown msg, 0)
    | none =>
      match ownBuild with
      | .ok content contentType =>
        (.response { status := 200, body := some content, contentType := some contentType,
                     etag := some fastEtag, cacheControl := some (cacheControlLocal localMaxAge) }, 1)
      | .fail msg =>
        -- the catch block synthesizes the 200 diagnostic script; the
        -- Response carries only a Content-Type header
        (.response { status := 200, body := some (errorScript sourceFile msg),
                     contentType := some "application/javascript",
                     etag := none, cacheControl := none }, 1)

/- ### The source-path jail (source: secureResolve and the candidate loop).

  const secureResolve = (relativePath) => {
    const cleanRelative = relativePath.startsWith("/") ? relativePath.slice(1) : relativePath;
    const resolvedPath = path.join(absSourcePath, cleanRelative);
    if (!resolvedPath.startsWith(absSourcePath)) return null;
    return resolvedPath;
  };

node:path posix join concatenates with "/" and normalizes: empty and "."
segments vanish, ".." pops the previous segment (and is dropped at the root
of an absolute path).  absSourcePath is an absolute path, so the model
normalizes in absolute mode. -/

/-- The segments of a path, with the empty and "." segments removed the way
normalization removes them. -/
def pathSegs (s : String) : List String :=
  (splitOnChar '/' s.data).filter (fun t => t ≠ "" ∧ t ≠ ".")

/-- Resolution of ".." segments of an absolute path: each ".." removes the
segment before it; above the root it disappears. -/
def collapseDots (segs : List String) : List String :=
  segs.foldl (fun acc seg => if seg = ".." then acc.dropLast else acc ++ [seg]) []

/-- Render an absolute path from its segments. -/
def renderSegs : List String → String
  | [] => ""
  | [x] => x
  | x :: y :: r => x ++ "/" ++ renderSegs (y :: r)

/-- Render an absolute path. -/
def renderAbs (segs : List String) : String :=
  "/" ++ renderSegs segs

/-- Model of path.join(a, b) for an absolute a. -/
def pathJoinAbs (a b : String) : String :=
  renderAbs (collapseDots (pathSegs a ++ pathSegs b))

/-- Model of the cleanRelative step of secureResolve. -/
def cleanRel (relativePath : String) : String :=
  if strBeginsWith relativePath "/" then strDrop relativePath 1 else relativePath

/-- Model of secureResolve: the joined path is kept only when the string
test resolvedPath.startsWith(absSourcePath) accepts it. -/
def secureResolve (absSourcePath relativePath : String) : Option String :=
  if strBeginsWith (pathJoinAbs absSourcePath (cleanRel relativePath)) absSourcePath then
    some (pathJoinAbs absSourcePath (cleanRel relativePath))
  else none

/-- Model of path.extname: the extension of the last path segment (empty
when the segment has no dot or only a leading dot). -/
def extnameOf (p : String) : String :=
  let base := ((splitOnChar '/' p.data).getLastD "").data
  let after := base.reverse.takeWhile (fun c => c ≠ '.')
  if after.length = base.length then ""
  else if after.length + 1 = base.length then ""
  else ⟨'.' :: after.reverse⟩

/-- Model of "internalPath.endsWith('.js') ? internalPath.slice(0, -3)
: internalPath": the stem the extension candidates are appended to. -/
def jsBaseName (internalPath : String) : String :=
  if strEndsWith internalPath ".js" then strDropRight internalPath 3 else internalPath

/-- One candidate of the extension loop: a secure resolution followed by
the existsSync check (fileExists is the existsSync oracle). -/
def tryCandidate (absSourcePath cand : String) (fileExists : String → Bool) :
    Option String :=
  match secureResolve absSourcePath cand with
  | some p => if fileExists p then some p else none
  | none => none

/-- Model of the candidate loop that turns the request path (relative to
the public base) into a source file: a direct secureResolve for stylesheet
requests, otherwise the ".tsx", ".ts", ".jsx", ".js" candidates in order.
Returns the source file and its content type, or none, which the
middleware answers with next(). -/
def resolveLocalSource (absSourcePath internalPath : String) (fileExists : String → Bool) :
    Option (String × String) :=
  if extnameOf internalPath = ".css" then
    (tryCandidate absSourcePath internalPath fileExists).map (fun p => (p, "text/css"))
  else
    ((tryCandidate absSourcePath (jsBaseName internalPath ++ ".tsx") fileExists).orElse (fun _ =>
     (tryCandidate absSourcePath (jsBaseName internalPath ++ ".ts") fileExists).orElse (fun _ =>
     (tryCandidate absSourcePath (jsBaseName internalPath ++ ".jsx") fileExists).orElse (fun _ =>
      tryCandidate absSourcePath (jsBaseName internalPath ++ ".js") fileExists)))).map
      (fun p => (p, "application/javascript"))

/- ### The import rewriter (source: the tokenRegex replace of the local
build path).

  const tokenRegex = /("(?:[^"\\]|\\.)*"|'(?:[^'\\]|\\.)*'|`(?:[^`\\]|\\.)*`|\/\/[^\n]*|\/\*[\s\S]*?\*\/)|((?:import|export)\s*[\s\S]*?from\s*['"]|import\s*\(['"])([^'"]+)(['"]\)?)/g;
  const finalCode = transpiledCode.replace(tokenRegex, (match, stringOrComment, prefix, path, suffix) => {
    if (stringOrComment) return match;
    if (/^(https?:|(?:\/\/))/.test(path)) return match;
    if (!path.startsWith(".") && !path.startsWith("/")) return `${prefix}${resolveModulePath(path)}${suffix}`;
    if (path.startsWith(".") && !path.split("/").pop()?.includes(".")) return `${prefix}${path}.js${suffix}`;
    return match;
  });

The model implements the leftmost-match, alternation-ordered, backtracking
semantics of this specific regular expression directly: at every input
position the string/comment alternative is attempted first and then
the import alternative; on failure the scan advances one character.  The
alternatives can never match at the same position (one begins with a quote
or a slash, the other with the letters of import/export), so the order
only matters for faithfulness, not for the result. -/

/-- The single-quote character. -/
def quoteS : Char := Char.ofNat 39

/-- The backtick character. -/
def quoteB : Char := Char.ofNat 96

/-- One of the two quote characters of the character class ['"]. -/
def isPathQuote (c : Char) : Bool := c = '"' ∨ c = quoteS

/-- The JS \s class on the characters the scanner can meet (ASCII
whitespace). -/
def isJsWS (c : Char) : Bool :=
  c = ' ' ∨ c = '\t' ∨ c = '\n' ∨ c = '\r' ∨ c = Char.ofNat 11 ∨ c = Char.ofNat 12

/-- The body of a quoted token: (?:[^q\\]|\\.)* followed by the closing
quote, where the dot of an escape does not match a newline.  Returns the
consumed characters (closing quote included) and the rest; none when the
token never closes. -/
def quotedBody (q : Char) : List Char → Option (List Char × List Char)
  | [] => none
  | [c] => if c = q then some ([c], []) else none
  | c :: d :: ds =>
    if c = q then some ([c], d :: ds)
    else if c = '\\' then
      if d = '\n' then none
      else (quotedBody q ds).map (fun pr => (c :: d :: pr.1, pr.2))
    else (quotedBody q (d :: ds)).map (fun pr => (c :: pr.1, pr.2))

/-- A full quoted token starting at the current position. -/
def matchQuoted (q : Char) (s : List Char) : Option (List Char × List Char) :=
  match s with
  | c :: cs =>
    if c = q then (quotedBody q cs).map (fun pr => (c :: pr.1, pr.2)) else none
  | [] => none

/-- A line comment token: // up to (excluding) the next newline. -/
def matchLineComment (s : List Char) : Option (List Char × List Char) :=
  match s with
  | '/' :: '/' :: cs =>
    let body := cs.takeWhile (fun c => c ≠ '\n')
    some ('/' :: '/' :: body, cs.drop body.length)
  | _ => none

/-- The lazy body of a block comment: everything up to and including the
first closing marker. -/
def blockBody : List Char → Option (List Char × List Char)
  | [] => none
  | '*' :: '/' :: cs => some (['*', '/'], cs)
  | c :: cs => (blockBody cs).map (fun pr => (c :: pr.1, pr.2))

/-- A block comment token. -/
def matchBlockComment (s : List Char) : Option (List Char × List Char) :=
  match s with
  | '/' :: '*' :: cs => (blockBody cs).map (fun pr => ('/' :: '*' :: pr.1, pr.2))
  | _ => none

/-- The string-or-comment alternative of tokenRegex, in the alternation
order of the source. -/
def matchStringOrComment (s : List Char) : Option (List Char × List Char) :=
  (matchQuoted '"' s).orElse (fun _ =>
  (matchQuoted quoteS s).orElse (fun _ =>
  (matchQuoted quoteB s).orElse (fun _ =>
  (matchLineComment s).orElse (fun _ =>
  matchBlockComment s))))

/-- Groups 3 and 4 of tokenRegex: the specifier [^'"]+ (greedy, stopping at
the first quote, nonempty) and the closing ['"]\)? token.  Returns
(specifier, closing token, rest). -/
def matchSpecifierTail (s : List Char) : Option (List Char × List Char × List Char) :=
  let p := s.takeWhile (fun c => ¬ isPathQuote c)
  if p.isEmpty then none
  else
    match s.drop p.length with
    | c :: ')' :: rest => some (p, [c, ')'], rest)
    | c :: rest => some (p, [c], rest)
    | [] => none

/-- The from\s*['"] probe with its specifier tail, attempted at the current
position.  Returns (consumed up to and including the opening quote,
specifier, closing token, rest). -/
def fromHere (s : List Char) : Option (List Char × List Char × List Char × List Char) :=
  if "from".data.isPrefixOf s then
    let after := s.drop 4
    let ws := after.takeWhile isJsWS
    match after.drop ws.length with
    | c :: rest =>
      if isPathQuote c then
        match matchSpecifierTail rest with
        | some (p, suf, rest2) => some ("from".data ++ ws ++ [c], p, suf, rest2)
        | none => none
      else none
    | [] => none
  else none

/-- The backtracking search of the lazy [\s\S]*? middle: the first position
at which the from-probe (with its specifier tail) succeeds.  This is
exactly the candidate order a backtracking engine explores for
\s*[\s\S]*?from\s*['"] followed by the specifier groups. -/
def scanFrom : List Char → Option (List Char × List Char × List Char × List Char)
  | [] => none
  | c :: cs =>
    match fromHere (c :: cs) with
    | some r => some r
    | none => (scanFrom cs).map (fun r => (c :: r.1, r.2.1, r.2.2.1, r.2.2.2))

/-- The import alternative of tokenRegex: the (?:import|export)...from
branch first, then the dynamic-import branch, as the alternation orders
them.  Returns (whole leading group, specifier, closing token, rest). -/
def matchImportLike (s : List Char) : Option (List Char × List Char × List Char × List Char) :=
  let kwImport := "import".data.isPrefixOf s
  let kwExport := "export".data.isPrefixOf s
  if kwImport ∨ kwExport then
    let kw := s.take 6
    let after := s.drop 6
    match scanFrom after with
    | some (mid, p, suf, rest) => some (kw ++ mid, p, suf, rest)
    | none =>
      if kwImport then
        let ws := after.takeWhile isJsWS
        match after.drop ws.length with
        | '(' :: c :: rest =>
          if isPathQuote c then
            match matchSpecifierTail rest with
            | some (p, suf, rest2) => some (kw ++ ws ++ ['(', c], p, suf, rest2)
            | none => none
          else none
        | _ => none
      else none
  else none

/-- The replacement computed for a real import specifier (the non-string
branches of the replace callback). -/
def rewriteSpecifier (cfg : GatewayCfg) (p : List Char) : List Char :=
  let ps : String := ⟨p⟩
  if strBeginsWith ps "http:" ∨ strBeginsWith ps "https:" ∨ strBeginsWith ps "//" then p
  else if ¬ strBeginsWith ps "." ∧ ¬ strBeginsWith ps "/" then
    (resolveModulePath cfg ps).data
  else if strBeginsWith ps "." ∧
      ¬ strContainsChar ((splitOnChar '/' p).getLastD "") '.' then
    p ++ ".js".data
  else p

/-- The global replace loop: find the leftmost tokenRegex match, copy a
string/comment token verbatim, rewrite the specifier of an import token,
advance one character when nothing matches.  The fuel is the input length;
every step consumes at least one character. -/
def rewriteGo (cfg : GatewayCfg) : Nat → List Char → List Char
  | 0, s => s
  | _ + 1, [] => []
  | fuel + 1, c :: cs =>
    match matchStringOrComment (c :: cs) with
    | some (tok, rest) => tok ++ rewriteGo cfg fuel rest
    | none =>
      match matchImportLike (c :: cs) with
      | some (lead, p, suf, rest) =>
        lead ++ rewriteSpecifier cfg p ++ suf ++ rewriteGo cfg fuel rest
      | none => c :: rewriteGo cfg fuel cs

/-- The import rewriter applied to a compiled output. -/
def rewriteImports (cfg : GatewayCfg) (code : String) : String :=
  ⟨rewriteGo cfg code.data.length code.data⟩

/- ### Concrete material shared by the evaluation theorems. -/

/-- The single-quote character as a one-character string (used to build the
concrete JavaScript snippets the rewriter theorems evaluate). -/
def sqc : String := ⟨[quoteS]⟩

/-- Substring test on character lists (JS "hay.includes(needle)"). -/
def listInfix (needle : List Char) : List Char → Bool
  | [] => needle.isEmpty
  | c :: cs => needle.isPrefixOf (c :: cs) || listInfix needle cs

/-- A gateway configuration for the concrete evaluations: public base
"/_modules/", vendor sub-path "vendor", no globals, nothing resolvable
locally, CDN fallback off. -/
def exCfg : GatewayCfg :=
  { basePre := "/_modules/", vendorSub := "vendor", globalsKeys := [],
    resolves := fun _ => false, cdnFallback := false }

/-- Compiled output whose only import-like text sits inside a double-quoted
string literal, preceded by a top-level "export" keyword. -/
def exBadInput : String :=
  "export const a = 1;\nconst s = \"x from " ++ sqc ++ "foo" ++ sqc ++ " y\";\n"

/-- What the rewriter actually produces on exBadInput: the specifier-shaped
substring inside the string literal has been rewritten to the vendor proxy
path. -/
def exBadOutput : String :=
  "export const a = 1;\nconst s = \"x from " ++ sqc ++ "/_modules/vendor/foo" ++ sqc ++ " y\";\n"

/-- The dedicated regression scenario: a real import of package foo, a
relative extensionless import, an absolute URL import, a string literal
containing the text from "foo", and a comment containing the same text. -/
def exRegInput : String :=
  "import { x } from \"foo\";\nimport y from \"./util\";\nimport z from \"https://cdn.example/z.js\";\nconst s = "
    ++ sqc ++ "from \"foo\"" ++ sqc ++ ";\n// from \"foo\" in comment\n"

/-- The rewritten regression scenario: only the real imports change. -/
def exRegOutput : String :=
  "import { x } from \"/_modules/vendor/foo\";\nimport y from \"./util.js\";\nimport z from \"https://cdn.example/z.js\";\nconst s = "
    ++ sqc ++ "from \"foo\"" ++ sqc ++ ";\n// from \"foo\" in comment\n"

/- ### Configurations and states for the concrete evaluations of the vendor
handler. -/

/-- A configuration with CDN fallback enabled in which exactly the packages
dayjs and lodash resolve locally (both installed in node_modules, neither
referenced by any source file). -/
def cfgFallback : GatewayCfg :=
  { basePre := "/_modules/", vendorSub := "vendor", globalsKeys := [],
    resolves := fun n => n == "dayjs" || n == "lodash", cdnFallback := true }

/-- A vendor state with an empty trusted set, an empty cache and a compiler
that succeeds on every entry point. -/
def emptyVendorState : VendorState :=
  { trusted := [], cached := [], buildOk := fun _ => true }

set_option maxRecDepth 400000

/- ### Helper lemmas about the trust registry. -/

/-- registerTrustedDependency never removes an element. -/
theorem mem_registerTrustedDependency {t : List String} {x : String} (n : String)
    (h : x ∈ t) : x ∈ registerTrustedDependency t n := by
  unfold registerTrustedDependency
  split
  · exact h
  · split
    · exact List.mem_append_left _ h
    · exact h

/-- registerTrustedDependency puts the trimmed name into the set. -/
theorem registerTrustedDependency_self {t : List String} {n : String}
    (h0 : n ≠ "") (h1 : strTrim n ≠ "") : strTrim n ∈ registerTrustedDependency t n := by
  unfold registerTrustedDependency
  rw [if_neg h0]
  by_cases hm : strTrim n ∈ t
  · rw [if_neg (by simp [hm])]
    exact hm
  · rw [if_pos ⟨h1, hm⟩]
    exact List.mem_append_right _ (List.mem_singleton_self _)

/-- Registering the same name twice is the same as registering it once. -/
theorem registerTrustedDependency_idem (t : List String) (n : String) :
    registerTrustedDependency (registerTrustedDependency t n) n
      = registerTrustedDependency t n := by
  by_cases h0 : n = ""
  · simp [registerTrustedDependency, h0]
  · by_cases h1 : strTrim n ≠ "" ∧ strTrim n ∉ t
    · have he : registerTrustedDependency t n = t ++ [strTrim n] := by
        unfold registerTrustedDependency
        rw [if_neg h0, if_pos h1]
      rw [he]
      unfold registerTrustedDependency
      rw [if_neg h0,
        if_neg (fun hc => hc.2 (List.mem_append_right _ (List.mem_singleton_self _)))]
    · have he : registerTrustedDependency t n = t := by
        unfold registerTrustedDependency
        rw [if_neg h0, if_neg h1]
      rw [he, he]

/-- A fold of registrations never removes an element. -/
theorem mem_foldl_registerTrustedDependency {x : String} :
    ∀ (ops t : List String), x ∈ t → x ∈ ops.foldl registerTrustedDependency t
  | [], _, h => h
  | n :: ops, _, h =>
    mem_foldl_registerTrustedDependency ops _ (mem_registerTrustedDependency n h)

/-- A fold of registrations contains the trimmed form of every proper name
of the list. -/
theorem foldl_registerTrustedDependency_mem {n : String} (h0 : n ≠ "") (h1 : strTrim n ≠ "") :
    ∀ (ops t : List String), n ∈ ops → strTrim n ∈ ops.foldl registerTrustedDependency t
  | [], _, h => absurd h (List.not_mem_nil n)
  | m :: ops, t, h => by
    rcases List.mem_cons.mp h with rfl | hm
    · exact mem_foldl_registerTrustedDependency ops _ (registerTrustedDependency_self h0 h1)
    · exact foldl_registerTrustedDependency_mem h0 h1 ops _ hm

/-- The stem-registration fold of the seeding never removes an element. -/
theorem mem_foldl_registerStem {x : String} :
    ∀ (cs t : List String), x ∈ t →
      x ∈ cs.foldl (fun acc stem => registerTrustedDependency acc (stemToModule stem)) t
  | [], _, h => h
  | s :: cs, _, h =>
    mem_foldl_registerStem cs _ (mem_registerTrustedDependency (stemToModule s) h)

/-- The stem-registration fold contains the recovered name of every stem. -/
theorem foldl_registerStem_mem {stem : String} (h0 : stemToModule stem ≠ "")
    (h1 : strTrim (stemToModule stem) ≠ "") :
    ∀ (cs t : List String), stem ∈ cs →
      strTrim (stemToModule stem)
        ∈ cs.foldl (fun acc s => registerTrustedDependency acc (stemToModule s)) t
  | [], _, h => absurd h (List.not_mem_nil stem)
  | s :: cs, t, h => by
    rcases List.mem_cons.mp h with rfl | hm
    · exact mem_foldl_registerStem cs _ (registerTrustedDependency_self h0 h1)
    · exact foldl_registerStem_mem h0 h1 cs _ hm

/-- The Set-constructor fold never removes an element. -/
theorem mem_foldl_setIns {x : String} :
    ∀ (l acc : List String), x ∈ acc →
      x ∈ l.foldl (fun acc n => if n ∈ acc then acc else acc ++ [n]) acc
  | [], _, h => h
  | m :: l, acc, h => by
    apply mem_foldl_setIns l
    show x ∈ if m ∈ acc then acc else acc ++ [m]
    by_cases hm : m ∈ acc
    · rw [if_pos hm]; exact h
    · rw [if_neg hm]; exact List.mem_append_left _ h

/-- The Set-constructor fold contains every element of its list. -/
theorem foldl_setIns_mem {x : String} :
    ∀ (l acc : List String), x ∈ l →
      x ∈ l.foldl (fun acc n => if n ∈ acc then acc else acc ++ [n]) acc
  | [], _, h => absurd h (List.not_mem_nil x)
  | m :: l, acc, h => by
    rcases List.mem_cons.mp h with rfl | hm
    · apply mem_foldl_setIns l
      show x ∈ if x ∈ acc then acc else acc ++ [x]
      by_cases hx : x ∈ acc
      · rw [if_pos hx]; exact hx
      · rw [if_neg hx]; exact List.mem_append_right _ (List.mem_singleton_self _)
    · exact foldl_setIns_mem l _ hm

/-- Membership in the modelled JS Set literal. -/
theorem mem_setFromList {x : String} {l : List String} (h : x ∈ l) : x ∈ setFromList l :=
  foldl_setIns_mem l [] h

/- ### Helper lemmas about association-list lookup and strings. -/

/-- Last-binding lookup distributes over concatenation: the later block is
consulted first. -/
theorem objLookup_append (l1 l2 : List (String × String)) (k : String) :
    objLookup (l1 ++ l2) k =
      match objLookup l2 k with
      | some v => some v
      | none => objLookup l1 k := by
  induction l1 with
  | nil =>
    show objLookup l2 k = _
    cases objLookup l2 k <;> rfl
  | cons kv l1 ih =>
    show (match objLookup (l1 ++ l2) k with
      | some v => some v
      | none => if kv.1 = k then some kv.2 else none) =
      match objLookup l2 k with
      | some v => some v
      | none =>
        match objLookup l1 k with
        | some v => some v
        | none => if kv.1 = k then some kv.2 else none
    rw [ih]
    cases objLookup l2 k <;> cases objLookup l1 k <;> rfl

/-- A key bound nowhere in the list looks up to none. -/
theorem objLookup_eq_none {l : List (String × String)} {k : String}
    (h : k ∉ l.map Prod.fst) : objLookup l k = none := by
  induction l with
  | nil => rfl
  | cons kv l ih =>
    have hk : kv.1 ≠ k := fun he => h (by simp [he])
    have hl : k ∉ l.map Prod.fst := fun hm => h (by simp [hm])
    show (match objLookup l k with
      | some v => some v
      | none => if kv.1 = k then some kv.2 else none) = none
    rw [ih hl, if_neg hk]

/-- With duplicate-free keys, lookup finds the unique binding. -/
theorem objLookup_of_mem_nodup {l : List (String × String)} {k v : String}
    (hn : (l.map Prod.fst).Nodup) (h : (k, v) ∈ l) : objLookup l k = some v := by
  induction l with
  | nil => cases h
  | cons kv l ih =>
    rcases List.mem_cons.mp h with rfl | hm
    · have hk : k ∉ l.map Prod.fst := by
        have := hn
        simp only [List.map_cons, List.nodup_cons] at this
        exact this.1
      show (match objLookup l k with
        | some v => some v
        | none => if k = k then some v else none) = some v
      rw [objLookup_eq_none hk, if_pos rfl]
    · have hn2 : (l.map Prod.fst).Nodup := by
        simp only [List.map_cons, List.nodup_cons] at hn
        exact hn.2
      show (match objLookup l k with
        | some v2 => some v2
        | none => if kv.1 = k then some kv.2 else none) = some v
      rw [ih hn2 hm]

/-- String concatenation cancels on the left. -/
theorem strAppend_left_cancel {a b c : String} (h : a ++ b = a ++ c) : b = c := by
  apply String.ext
  have hd := congrArg String.data h
  rw [String.data_append, String.data_append] at hd
  exact List.append_cancel_left hd

/- ### Helper lemmas about the cache-key sanitization. -/

/-- Sanitization maps only the empty name to the empty key. -/
theorem sanitizeChars_eq_nil {l : List Char} (h : sanitizeChars l = []) : l = [] := by
  cases l with
  | nil => rfl
  | cons c r =>
    by_cases hc : c = '/' <;> simp [sanitizeChars, hc] at h

/-- For a name without underscores, the startup reverse mapping undoes the
cache-key sanitization. -/
theorem unsanitize_sanitize {l : List Char} (h : '_' ∉ l) :
    unsanitizeChars (sanitizeChars l) = l := by
  induction l with
  | nil => rfl
  | cons c r ih =>
    have hc : c ≠ '_' := fun hh => h (hh ▸ List.mem_cons_self c r)
    have hr : '_' ∉ r := fun hh => h (List.mem_cons_of_mem c hh)
    by_cases hs : c = '/'
    · subst hs
      rw [show sanitizeChars ('/' :: r) = '_' :: '_' :: sanitizeChars r from by
        simp [sanitizeChars]]
      rcases hsr : sanitizeChars r with _ | ⟨c2, r2⟩
      · rw [sanitizeChars_eq_nil hsr]
        rfl
      · rw [show unsanitizeChars ('_' :: '_' :: c2 :: r2) = '/' :: unsanitizeChars (c2 :: r2) from by
          simp [unsanitizeChars]]
        rw [← hsr, ih hr]
    · rw [show sanitizeChars (c :: r) = c :: sanitizeChars r from by simp [sanitizeChars, hs]]
      rcases hsr : sanitizeChars r with _ | ⟨c2, r2⟩
      · rw [sanitizeChars_eq_nil hsr]
        rfl
      · rw [show unsanitizeChars (c :: c2 :: r2) = c :: unsanitizeChars (c2 :: r2) from by
          simp [unsanitizeChars, hc]]
        rw [← hsr, ih hr]

/- ### Helper lemmas about path normalization. -/

/-- Folding the dot-collapse step over a segment list without ".." simply
appends the segments. -/
theorem foldl_collapse_no_dotdot :
    ∀ (ps : List String), ".." ∉ ps → ∀ acc : List String,
      ps.foldl (fun acc seg => if seg = ".." then acc.dropLast else acc ++ [seg]) acc
        = acc ++ ps
  | [], _, acc => by simp
  | p :: ps, h, acc => by
    have hp : p ≠ ".." := fun hh => h (hh ▸ List.mem_cons_self p ps)
    have hps : ".." ∉ ps := fun hh => h (List.mem_cons_of_mem p hh)
    show List.foldl _ ((fun acc seg => if seg = ".." then acc.dropLast else acc ++ [seg]) acc p) ps
        = acc ++ p :: ps
    rw [show (fun acc seg => if seg = ".." then acc.dropLast else acc ++ [seg]) acc p
        = acc ++ [p] from by simp [hp]]
    rw [foldl_collapse_no_dotdot ps hps (acc ++ [p])]
    simp

/-- Joining traversal-free segments onto a collapsed head collapses to the
plain concatenation. -/
theorem collapseDots_append {ps : List String} (hdd : ".." ∉ ps) (rs : List String) :
    collapseDots (rs ++ ps) = collapseDots rs ++ ps := by
  unfold collapseDots
  rw [List.foldl_append]
  exact foldl_collapse_no_dotdot ps hdd _

/- ### Claim theorems. -/

/-- Claim C1 (code bug, failing input): for the very first request for an
uncached vendor key whose producer throws before its first suspension point
(Bun.resolveSync fails synchronously), the settled job is registered in
activeBundles and never removed — the finally-block delete has already run
before the set.  For a producer that throws after its first suspension
point, or succeeds, the key is removed as the claim demands, and a
successful producer persists the cache entry. -/
theorem bundleVendor_syncThrow_job_never_removed :
    (bundleVendorFinal { cacheExists := false, mapHasKey := false } .syncThrow).mapHasKey
      = true ∧
    (bundleVendorFinal { cacheExists := false, mapHasKey := false } .asyncThrow).mapHasKey
      = false ∧
    (bundleVendorFinal { cacheExists := false, mapHasKey := false } .success).mapHasKey
      = false ∧
    (bundleVendorFinal { cacheExists := false, mapHasKey := false } .success).cacheExists
      = true := by
  refine ⟨rfl, rfl, rfl, rfl⟩

/-- Claim C9 (counterexample): the distinct package names "a/b" and "a__b"
share the sanitized cache key "a__b", so two semantically different vendor
artifacts share a persisted file. -/
theorem cacheKey_collision :
    cacheKeyOf "a/b" = cacheKeyOf "a__b" ∧ "a/b" ≠ "a__b" := by
  exact ⟨by decide, by decide⟩

/-- Claim C9 (amended): on package names that contain no underscore, cache
keys are injective and the startup reverse mapping recovers the original
name. -/
theorem cacheKey_injective_amended :
    (∀ n : String, '_' ∉ n.data → stemToModule (cacheKeyOf n) = n) ∧
    (∀ n1 n2 : String, '_' ∉ n1.data → '_' ∉ n2.data →
      cacheKeyOf n1 = cacheKeyOf n2 → n1 = n2) := by
  have round : ∀ n : String, '_' ∉ n.data → stemToModule (cacheKeyOf n) = n :=
    fun n h => String.ext (unsanitize_sanitize h)
  refine ⟨round, fun n1 n2 h1 h2 he => ?_⟩
  rw [← round n1 h1, he, round n2 h2]

/-- Witness for the amended C9 theorem at the scoped package name
"@scope/pkg". -/
theorem cacheKey_injective_amended_witness :
    stemToModule (cacheKeyOf "@scope/pkg") = "@scope/pkg" :=
  cacheKey_injective_amended.1 "@scope/pkg" (by decide)

/-- Claim C4 (counterexample): on output whose only import-like text lies
inside a double-quoted string literal, the rewriter still rewrites it:
the import pattern starts at the top-level "export" keyword whose lazy middle
swallows the opening quote of the literal, so the specifier-shaped
substring from 'foo' inside the literal is replaced by the vendor proxy
path and the literal is not byte-identical in the output. -/
theorem rewriter_rewrites_inside_string_literal :
    rewriteImports exCfg exBadInput = exBadOutput ∧
    exBadOutput ≠ exBadInput ∧
    listInfix ("from ".data ++ [quoteS] ++ "foo".data ++ [quoteS]) exBadInput.data = true ∧
    listInfix ("from ".data ++ [quoteS] ++ "foo".data ++ [quoteS])
      (rewriteImports exCfg exBadInput).data = false := by
  exact ⟨by decide, by decide, by decide, by decide⟩

/-- Claim C4 (amended): on the dedicated regression scenario — one
real import of package foo, a relative extensionless import, an absolute
URL import, a string literal containing the text from "foo" and a comment
containing the same text — the rewriter rewrites exactly the real
specifiers: the bare import goes to the vendor proxy path, the
relative import gains the script extension, the URL import stays, and the
string literal and the comment are byte-identical in the output. -/
theorem rewriter_regression_amended :
    rewriteImports exCfg exRegInput = exRegOutput ∧
    listInfix (sqc ++ "from \"foo\"" ++ sqc).data (rewriteImports exCfg exRegInput).data
      = true ∧
    listInfix ("// from \"foo\" in comment").data (rewriteImports exCfg exRegInput).data
      = true := by
  exact ⟨by decide, by decide, by decide⟩

/-- Claim C7 (code bug, failing input): a request that joins the in-flight
build of a local file whose compiler run fails awaits the shared promise
outside any try/catch, so the build error escapes the middleware as a
thrown exception; the request that owns the same failing build receives
the 200 diagnostic script instead. -/
theorem local_joined_build_failure_throws :
    handleLocalFile false 0 5 7 none (some (.fail "Build failed: x")) (.ok "" "") "app.ts"
      = (.thrown "Build failed: x", 0) ∧
    handleLocalFile false 0 5 7 none none (.fail "Build failed: x") "app.ts"
      = (.response
          { status := 200,
            body := some (errorScript "app.ts" "Build failed: x"),
            contentType := some "application/javascript",
            etag := none, cacheControl := none }, 1) := by
  exact ⟨by decide, by decide⟩

/-- Claim C5 (counterexample): a failing local build produces a 200
response for a local file whose ETag header is absent, not the weak
validator, so "on a 200 response for a local file the ETag equals the weak
validator" fails as stated. -/
theorem local_error_200_without_validator :
    handleLocalFile false 0 5 7 none none (.fail "boom") "f.ts"
      = (.response
          { status := 200, body := some (errorScript "f.ts" "boom"),
            contentType := some "application/javascript",
            etag := none, cacheControl := none }, 1) ∧
    (none : Option String) ≠ some (fastEtagOf 5 7 false) := by
  exact ⟨by decide, by decide⟩

/-- Claim C5 (amended): a conditional header equal to the weak validator
always yields a 304 with an empty body and zero compiler invocations, even
while a build job for the same key is in flight (the freshness check runs
before the job-map lookup); and every 200 response obtained from a
successful build — joined or owned — carries the weak validator as its
ETag. -/
theorem freshness_fast_path_amended :
    (∀ (minify : Bool) (maxAge size mt : Nat) (inflight : Option BuildOutcome)
        (own : BuildOutcome) (src : String),
      handleLocalFile minify maxAge size mt (some (fastEtagOf size mt minify)) inflight own src
        = (.response
            { status := 304, body := none, contentType := none,
              etag := none, cacheControl := none }, 0)) ∧
    (∀ (minify : Bool) (maxAge size mt : Nat) (ifm : Option String)
        (own : BuildOutcome) (src c ct : String),
      ifm ≠ some (fastEtagOf size mt minify) →
      handleLocalFile minify maxAge size mt ifm (some (.ok c ct)) own src
        = (.response
            { status := 200, body := some c, contentType := some ct,
              etag := some (fastEtagOf size mt minify),
              cacheControl := some (cacheControlLocal maxAge) }, 0)) ∧
    (∀ (minify : Bool) (maxAge size mt : Nat) (ifm : Option String) (src c ct : String),
      ifm ≠ some (fastEtagOf size mt minify) →
      handleLocalFile minify maxAge size mt ifm none (.ok c ct) src
        = (.response
            { status := 200, body := some c, contentType := some ct,
              etag := some (fastEtagOf size mt minify),
              cacheControl := some (cacheControlLocal maxAge) }, 1)) := by
  refine ⟨?_, ?_, ?_⟩
  · intro minify maxAge size mt inflight own src
    unfold handleLocalFile
    rw [if_pos rfl]
  · intro minify maxAge size mt ifm own src c ct h
    unfold handleLocalFile
    rw [if_neg h]
  · intro minify maxAge size mt ifm src c ct h
    unfold handleLocalFile
    rw [if_neg h]

/-- Witness for the amended C5 theorem: a matching conditional header gives
the 304 even with a failing job in flight; a missing header with a joined
successful build gives the validator-tagged 200. -/
theorem freshness_fast_path_amended_witness :
    handleLocalFile false 0 120 17000 (some (fastEtagOf 120 17000 false))
        (some (.fail "boom")) (.ok "x" "application/javascript") "m.ts"
      = (.response
          { status := 304, body := none, contentType := none,
            etag := none, cacheControl := none }, 0) ∧
    handleLocalFile false 0 120 17000 none (some (.ok "x" "application/javascript"))
        (.fail "unused") "m.ts"
      = (.response
          { status := 200, body := some "x",
            contentType := some "application/javascript",
            etag := some (fastEtagOf 120 17000 false),
            cacheControl := some (cacheControlLocal 0) }, 0) :=
  ⟨freshness_fast_path_amended.1 false 0 120 17000 (some (.fail "boom"))
      (.ok "x" "application/javascript") "m.ts",
   freshness_fast_path_amended.2.1 false 0 120 17000 none (.fail "unused")
      "m.ts" "x" "application/javascript" (by decide)⟩

/-- Claim C2 (counterexample): the jail check is a plain string-prefix
test, so a traversal that resolves into a sibling directory whose absolute
path extends the root as a string is accepted: from root "/app/src" the
request path "../src-secret/x" resolves to "/app/src-secret/x", which is
neither the root nor under the root directory, yet secureResolve does not
discard it. -/
theorem secureResolve_sibling_escape :
    secureResolve "/app/src" "../src-secret/x" = some "/app/src-secret/x" ∧
    strBeginsWith "/app/src-secret/x" ("/app/src" ++ "/") = false ∧
    "/app/src-secret/x" ≠ "/app/src" := by
  exact ⟨by decide, by decide, by decide⟩

/-- Claim C2 (amended): every path secureResolve accepts has the source
root as a string prefix (but not necessarily as a directory prefix, see
the counterexample); a relative path free of ".." segments joins to
exactly the root segments followed by its own segments, so it cannot leave
the root; and when every extension candidate is discarded the local
resolver returns none, which the middleware answers by delegating to the
next handler — a miss, never an error. -/
theorem secureResolve_jail_amended :
    (∀ root rel q, secureResolve root rel = some q → strBeginsWith q root = true) ∧
    (∀ root rel, ".." ∉ pathSegs (cleanRel rel) →
      collapseDots (pathSegs root) = pathSegs root →
      pathJoinAbs root (cleanRel rel)
        = renderAbs (pathSegs root ++ pathSegs (cleanRel rel))) ∧
    (∀ (root ip : String) (fe : String → Bool), extnameOf ip = ".css" →
      secureResolve root ip = none →
      resolveLocalSource root ip fe = none) ∧
    (∀ (root ip : String) (fe : String → Bool), extnameOf ip ≠ ".css" →
      secureResolve root (jsBaseName ip ++ ".tsx") = none →
      secureResolve root (jsBaseName ip ++ ".ts") = none →
      secureResolve root (jsBaseName ip ++ ".jsx") = none →
      secureResolve root (jsBaseName ip ++ ".js") = none →
      resolveLocalSource root ip fe = none) := by
  refine ⟨?_, ?_, ?_, ?_⟩
  · intro root rel q h
    unfold secureResolve at h
    split at h
    · injection h with h2
      rw [← h2]
      assumption
    · cases h
  · intro root rel hdd hroot
    unfold pathJoinAbs
    rw [collapseDots_append hdd, hroot]
  · intro root ip fe hcss hnone
    unfold resolveLocalSource
    rw [if_pos hcss]
    unfold tryCandidate
    rw [hnone]
    rfl
  · intro root ip fe hcss h1 h2 h3 h4
    unfold resolveLocalSource
    rw [if_neg hcss]
    unfold tryCandidate
    rw [h1, h2, h3, h4]
    rfl

/-- Witness for the amended C2 theorem: an ordinary in-jail resolution
keeps the root as a prefix and equals the root segments plus its own; the
traversal request "../../etc/passwd" is discarded on every candidate and
the local resolver reports the miss. -/
theorem secureResolve_jail_amended_witness :
    strBeginsWith "/app/src/components/App.tsx" "/app/src" = true ∧
    pathJoinAbs "/app/src" (cleanRel "components/App")
      = renderAbs (pathSegs "/app/src" ++ pathSegs (cleanRel "components/App")) ∧
    resolveLocalSource "/app/src" "../../etc/passwd" (fun _ => true) = none :=
  ⟨secureResolve_jail_amended.1 "/app/src" "components/App.tsx"
      "/app/src/components/App.tsx" (by decide),
   secureResolve_jail_amended.2.1 "/app/src" "components/App" (by decide) (by decide),
   secureResolve_jail_amended.2.2.2 "/app/src" "../../etc/passwd" (fun _ => true)
      (by decide) (by decide) (by decide) (by decide) (by decide)⟩

/-- Claim C3 (counterexample): with CDN fallback enabled the trust check is
skipped entirely, so a request for the unregistered package dayjs — which
resolves locally — is bundled locally (the compiler producer runs), not
redirected: the trusted-dependency set is not the sole gate once fallback
is on. -/
theorem vendor_untrusted_bundled_under_fallback :
    vendorHandle cfgFallback emptyVendorState "dayjs" = (.serveBundled, true) ∧
    "dayjs" ∉ emptyVendorState.trusted := by
  exact ⟨by decide, by decide⟩

/-- Claim C3 (amended): with CDN fallback disabled an unregistered name is
delegated as a miss and the producer never runs; with CDN fallback enabled
the registry is bypassed and any name that resolves locally is bundled
locally (the producer runs) regardless of registration. -/
theorem vendor_trust_gate_amended :
    (∀ (cfg : GatewayCfg) (st : VendorState) (name : String),
      cfg.cdnFallback = false → name ∉ st.trusted →
        vendorHandle cfg st name = (.delegate, false)) ∧
    (∀ (cfg : GatewayCfg) (st : VendorState) (name : String),
      cfg.cdnFallback = true → name ∉ st.cached → cfg.resolves name = true →
        (vendorHandle cfg st name).2 = true) := by
  constructor
  · intro cfg st name h1 h2
    simp [vendorHandle, h1, h2]
  · intro cfg st name h1 h2 h3
    simp only [vendorHandle, h1, h3]
    simp [h2]
    split <;> rfl

/-- Witness for the amended C3 theorem. -/
theorem vendor_trust_gate_amended_witness :
    vendorHandle exCfg emptyVendorState "evil-pkg" = (.delegate, false) ∧
    (vendorHandle cfgFallback emptyVendorState "lodash").2 = true :=
  ⟨vendor_trust_gate_amended.1 exCfg emptyVendorState "evil-pkg" (by decide) (by decide),
   vendor_trust_gate_amended.2 cfgFallback emptyVendorState "lodash" (by decide) (by decide)
      (by decide)⟩

/-- Claim C6 (counterexample): an unreferenced, non-prewarmed, non-globals,
non-persisted package that happens to be installed locally is, with CDN
fallback enabled, bundled and served 200 — not redirected to the mirror. -/
theorem vendor_fallback_resolvable_not_redirected :
    vendorHandle cfgFallback emptyVendorState "lodash" = (.serveBundled, true) ∧
    VendorAction.serveBundled ≠ .redirectCdn "https://esm.sh/lodash" := by
  exact ⟨by decide, by decide⟩

/-- Claim C6 (amended): for a package outside the trusted set with no
persisted entry, fallback-off delegates the request (indistinguishable
from an ordinary miss); fallback-on redirects to the mirror URL for that
exact name when local resolution fails, and bundles locally when local
resolution succeeds. -/
theorem vendor_untrusted_responses_amended :
    (∀ (cfg : GatewayCfg) (st : VendorState) (name : String),
      cfg.cdnFallback = false → name ∉ st.trusted →
        (vendorHandle cfg st name).1 = .delegate) ∧
    (∀ (cfg : GatewayCfg) (st : VendorState) (name : String),
      cfg.cdnFallback = true → name ∉ st.cached → cfg.resolves name = false →
        (vendorHandle cfg st name).1 = .redirectCdn ("https://esm.sh/" ++ name)) ∧
    (∀ (cfg : GatewayCfg) (st : VendorState) (name : String),
      cfg.cdnFallback = true → name ∉ st.cached → cfg.resolves name = true →
        st.buildOk name = true → (vendorHandle cfg st name).1 = .serveBundled) := by
  refine ⟨?_, ?_, ?_⟩
  · intro cfg st name h1 h2
    simp [vendorHandle, h1, h2]
  · intro cfg st name h1 h2 h3
    simp [vendorHandle, h1, h2, h3]
  · intro cfg st name h1 h2 h3 h4
    simp [vendorHandle, h1, h2, h3, h4]

/-- Witness for the amended C6 theorem. -/
theorem vendor_untrusted_responses_amended_witness :
    (vendorHandle exCfg emptyVendorState "left-pad").1 = .delegate ∧
    (vendorHandle cfgFallback emptyVendorState "unknown-pkg").1
      = .redirectCdn ("https://esm.sh/" ++ "unknown-pkg") ∧
    (vendorHandle cfgFallback emptyVendorState "dayjs").1 = .serveBundled :=
  ⟨vendor_untrusted_responses_amended.1 exCfg emptyVendorState "left-pad"
      (by decide) (by decide),
   vendor_untrusted_responses_amended.2.1 cfgFallback emptyVendorState "unknown-pkg"
      (by decide) (by decide) (by decide),
   vendor_untrusted_responses_amended.2.2 cfgFallback emptyVendorState "dayjs"
      (by decide) (by decide) (by decide) (by decide)⟩

/-- Claim C8: the trusted-dependency set only grows.  The register
operation never removes an element and is idempotent; no finite sequence
of registrations removes an element; the seeding puts in every prewarm
entry, every globals key, the recovered name of every persisted cache
stem, and every scanned bare specifier; and a successful local resolution
registers the resolved name. -/
theorem trustedDependencies_monotone_and_seeded :
    (∀ (t : List String) (n x : String), x ∈ t → x ∈ registerTrustedDependency t n) ∧
    (∀ (t : List String) (n : String),
      registerTrustedDependency (registerTrustedDependency t n) n
        = registerTrustedDependency t n) ∧
    (∀ (ops t : List String) (x : String), x ∈ t →
      x ∈ ops.foldl registerTrustedDependency t) ∧
    (∀ (pw gk cs si : List String) (p : String), p ∈ pw →
      p ∈ seedTrustedDependencies pw gk cs si) ∧
    (∀ (pw gk cs si : List String) (g : String), g ∈ gk →
      g ∈ seedTrustedDependencies pw gk cs si) ∧
    (∀ (pw gk cs si : List String) (stem : String), stem ∈ cs →
      stemToModule stem ≠ "" → strTrim (stemToModule stem) ≠ "" →
      strTrim (stemToModule stem) ∈ seedTrustedDependencies pw gk cs si) ∧
    (∀ (pw gk cs si : List String) (imp : String), imp ∈ si →
      strBeginsWith imp "." = false → strBeginsWith imp "/" = false →
      imp ≠ "" → strTrim imp ≠ "" →
      strTrim imp ∈ seedTrustedDependencies pw gk cs si) ∧
    (∀ (cfg : GatewayCfg) (t : List String) (n : String),
      n ∉ cfg.globalsKeys → cfg.resolves n = true →
      resolveModulePathTrust cfg t n = registerTrustedDependency t n) := by
  refine ⟨?_, ?_, ?_, ?_, ?_, ?_, ?_, ?_⟩
  · intro t n x h
    exact mem_registerTrustedDependency n h
  · exact registerTrustedDependency_idem
  · intro ops t x h
    exact mem_foldl_registerTrustedDependency ops t h
  · intro pw gk cs si p hp
    simp only [seedTrustedDependencies]
    apply mem_foldl_registerTrustedDependency
    apply mem_foldl_registerStem
    exact mem_setFromList (List.mem_append_left _ hp)
  · intro pw gk cs si g hg
    simp only [seedTrustedDependencies]
    apply mem_foldl_registerTrustedDependency
    apply mem_foldl_registerStem
    exact mem_setFromList (List.mem_append_right _ hg)
  · intro pw gk cs si stem hstem h0 h1
    simp only [seedTrustedDependencies]
    apply mem_foldl_registerTrustedDependency
    exact foldl_registerStem_mem h0 h1 cs _ hstem
  · intro pw gk cs si imp hsi hdot hslash h0 h1
    simp only [seedTrustedDependencies]
    apply foldl_registerTrustedDependency_mem h0 h1
    apply List.mem_filter.mpr
    exact ⟨hsi, by simp [hdot, hslash]⟩
  · intro cfg t n hg hr
    unfold resolveModulePathTrust
    rw [if_neg hg, if_pos hr]

/-- Witness for the C8 theorem at concrete seeding inputs. -/
theorem trustedDependencies_witness :
    "a" ∈ registerTrustedDependency ["a"] "b" ∧
    "preact" ∈ seedTrustedDependencies ["preact"] ["react"] ["lodash__fp"] ["zod"] ∧
    "react" ∈ seedTrustedDependencies ["preact"] ["react"] ["lodash__fp"] ["zod"] ∧
    strTrim (stemToModule "lodash__fp")
      ∈ seedTrustedDependencies ["preact"] ["react"] ["lodash__fp"] ["zod"] ∧
    strTrim "zod" ∈ seedTrustedDependencies ["preact"] ["react"] ["lodash__fp"] ["zod"] :=
  ⟨trustedDependencies_monotone_and_seeded.1 ["a"] "b" "a" (by decide),
   trustedDependencies_monotone_and_seeded.2.2.2.1 ["preact"] ["react"] ["lodash__fp"]
      ["zod"] "preact" (by decide),
   trustedDependencies_monotone_and_seeded.2.2.2.2.1 ["preact"] ["react"] ["lodash__fp"]
      ["zod"] "react" (by decide),
   trustedDependencies_monotone_and_seeded.2.2.2.2.2.1 ["preact"] ["react"] ["lodash__fp"]
      ["zod"] "lodash__fp" (by decide) (by decide) (by decide),
   trustedDependencies_monotone_and_seeded.2.2.2.2.2.2.1 ["preact"] ["react"] ["lodash__fp"]
      ["zod"] "zod" (by decide) (by decide) (by decide) (by decide) (by decide)⟩

/- ### Helper lemmas for the define map. -/

/-- Every key of the PUBLIC_ bindings comes from a PUBLIC_ environment
entry. -/
theorem mem_publicEnvPairs_keys {env : List (String × String)} {k : String}
    (h : k ∈ (publicEnvPairs env).map Prod.fst) :
    ∃ kv, kv ∈ env ∧ strBeginsWith kv.1 "PUBLIC_" = true ∧ k = "process.env." ++ kv.1 := by
  unfold publicEnvPairs at h
  rw [List.map_map] at h
  obtain ⟨kv, hkv, he⟩ := List.mem_map.mp h
  have hf := List.mem_filter.mp hkv
  exact ⟨kv, hf.1, hf.2, he.symm⟩

/-- The NODE_ENV key never collides with a PUBLIC_ binding. -/
theorem nodeEnvKey_not_in_publicEnv (env : List (String × String)) :
    "process.env.NODE_ENV" ∉ (publicEnvPairs env).map Prod.fst := by
  intro h
  obtain ⟨kv, _, hpub, heq⟩ := mem_publicEnvPairs_keys h
  have h2 : ("process.env." : String) ++ "NODE_ENV" = "process.env." ++ kv.1 :=
    (show ("process.env." : String) ++ "NODE_ENV" = "process.env.NODE_ENV" from rfl).trans heq
  have h3 : kv.1 = "NODE_ENV" := (strAppend_left_cancel h2).symm
  rw [h3] at hpub
  exact absurd hpub (by decide)

/-- With unique environment keys, the PUBLIC_ binding keys are unique. -/
theorem publicEnvPairs_keys_nodup {env : List (String × String)}
    (h : (env.map Prod.fst).Nodup) : ((publicEnvPairs env).map Prod.fst).Nodup := by
  unfold publicEnvPairs
  rw [List.map_map]
  have hsub : ((env.filter (fun kv => strBeginsWith kv.1 "PUBLIC_")).map Prod.fst).Sublist
      (env.map Prod.fst) := (List.filter_sublist env).map Prod.fst
  have hnd : ((env.filter (fun kv => strBeginsWith kv.1 "PUBLIC_")).map Prod.fst).Nodup :=
    h.sublist hsub
  have hinj : Function.Injective (fun s : String => "process.env." ++ s) :=
    fun a b hab => strAppend_left_cancel hab
  have := hnd.map hinj
  rw [List.map_map] at this
  exact this

/-- A PUBLIC_ environment entry appears as a binding of the PUBLIC_
block. -/
theorem mem_publicEnvPairs {env : List (String × String)} {k v : String}
    (h : (k, v) ∈ env) (hp : strBeginsWith k "PUBLIC_" = true) :
    ("process.env." ++ k, jsonQuote v) ∈ publicEnvPairs env := by
  unfold publicEnvPairs
  exact List.mem_map_of_mem _ (List.mem_filter.mpr ⟨h, hp⟩)

/-- Claim C10: the compile-time define map exposes exactly the PUBLIC_
environment variables (JSON-stringified, under a process.env key) plus
NODE_ENV with its development default, together with whatever the caller
passes explicitly in the define option, and the caller-supplied entries
override the defaults. -/
theorem defaultDefine_spec :
    (∀ (env d : List (String × String)) (k v : String),
      (env.map Prod.fst).Nodup → (k, v) ∈ env → strBeginsWith k "PUBLIC_" = true →
      objLookup d ("process.env." ++ k) = none →
      objLookup (defaultDefine env d) ("process.env." ++ k) = some (jsonQuote v)) ∧
    (∀ (env d : List (String × String)),
      objLookup d "process.env.NODE_ENV" = none →
      objLookup (defaultDefine env d) "process.env.NODE_ENV"
        = some (jsonQuote (nodeEnvValue (envLookup env "NODE_ENV")))) ∧
    (∀ (env d : List (String × String)) (k : String),
      k ∈ (defaultDefine env d).map Prod.fst →
      k = "process.env.NODE_ENV" ∨
      (∃ kv, kv ∈ env ∧ strBeginsWith kv.1 "PUBLIC_" = true ∧ k = "process.env." ++ kv.1) ∨
      k ∈ d.map Prod.fst) ∧
    (∀ (env d : List (String × String)) (k v : String),
      objLookup d k = some v → objLookup (defaultDefine env d) k = some v) := by
  refine ⟨?_, ?_, ?_, ?_⟩
  · intro env d k v hn hm hp hd
    have hpub : objLookup (publicEnvPairs env) ("process.env." ++ k) = some (jsonQuote v) :=
      objLookup_of_mem_nodup (publicEnvPairs_keys_nodup hn) (mem_publicEnvPairs hm hp)
    show (match objLookup (publicEnvPairs env ++ d) ("process.env." ++ k) with
      | some v2 => some v2
      | none =>
        if ("process.env.NODE_ENV" : String) = "process.env." ++ k
        then some (jsonQuote (nodeEnvValue (envLookup env "NODE_ENV"))) else none)
      = some (jsonQuote v)
    rw [objLookup_append, hd, hpub]
  · intro env d hd
    have hpub : objLookup (publicEnvPairs env) "process.env.NODE_ENV" = none :=
      objLookup_eq_none (nodeEnvKey_not_in_publicEnv env)
    show (match objLookup (publicEnvPairs env ++ d) "process.env.NODE_ENV" with
      | some v2 => some v2
      | none =>
        if ("process.env.NODE_ENV" : String) = "process.env.NODE_ENV"
        then some (jsonQuote (nodeEnvValue (envLookup env "NODE_ENV"))) else none)
      = some (jsonQuote (nodeEnvValue (envLookup env "NODE_ENV")))
    rw [objLookup_append, hd, hpub]
    simp
  · intro env d k hk
    unfold defaultDefine at hk
    simp only [List.map_cons, List.map_append] at hk
    rcases List.mem_cons.mp hk with h | h2
    · exact Or.inl h
    · rcases List.mem_append.mp h2 with h | h
      · exact Or.inr (Or.inl (mem_publicEnvPairs_keys h))
      · exact Or.inr (Or.inr h)
  · intro env d k v hd
    show (match objLookup (publicEnvPairs env ++ d) k with
      | some v2 => some v2
      | none =>
        if ("process.env.NODE_ENV" : String) = k
        then some (jsonQuote (nodeEnvValue (envLookup env "NODE_ENV"))) else none)
      = some v
    rw [objLookup_append, hd]

/-- Witness for the C10 theorem at a concrete environment. -/
theorem defaultDefine_spec_witness :
    objLookup (defaultDefine [("PUBLIC_API", "x"), ("NODE_ENV", "production")]
        [("__V__", "1")]) ("process.env." ++ "PUBLIC_API") = some (jsonQuote "x") ∧
    objLookup (defaultDefine [("PUBLIC_API", "x")] []) "process.env.NODE_ENV"
      = some (jsonQuote (nodeEnvValue (envLookup [("PUBLIC_API", "x")] "NODE_ENV"))) ∧
    objLookup (defaultDefine [("PUBLIC_API", "x")] [("__V__", "1")]) "__V__" = some "1" :=
  ⟨defaultDefine_spec.1 [("PUBLIC_API", "x"), ("NODE_ENV", "production")] [("__V__", "1")]
      "PUBLIC_API" "x" (by decide) (by decide) (by decide) (by decide),
   defaultDefine_spec.2.1 [("PUBLIC_API", "x")] [] (by decide),
   defaultDefine_spec.2.2.2 [("PUBLIC_API", "x")] [("__V__", "1")] "__V__" "1" (by decide)⟩
